import Mathlib

/-
Verification of the chunked-uploader client (uploader_poc).

The definitions below are a shallow embedding of the TypeScript sources:
  * src/angular-uploader/src/app/services/upload.service.ts  (UploadService)
  * src/unnamed/part_001                                     (single-file UploaderComponent)
Machine numbers are modelled as Nat (all sizes involved are non-negative
integers well below 2^53, where JS number arithmetic on integers is exact).
Reactive pipelines are modelled by pure functions that return the list of
observable events a run emits together with the run's result; oracles of type
Nat -> Bool supply the environment's choices (transport outcomes, the pause
flag) sampled against a discrete clock of emitted events.
-/

namespace Uploader

/-- One megabyte, as in getOptimalConfig: const MB = 1024 * 1024. -/
def MB : Nat := 1024 * 1024

/-- One gigabyte, as in getOptimalConfig: const GB = 1024 * MB. -/
def GB : Nat := 1024 * MB

/-- UPLOAD_CONFIG.MAX_FILE_SIZE = 10 * 1024 * 1024 * 1024 (upload.service.ts line 31). -/
def MAX_FILE_SIZE : Nat := 10 * 1024 * 1024 * 1024

/-- UPLOAD_CONFIG.BASE_RETRY_DELAY = 1000 ms (upload.service.ts line 33). -/
def BASE_RETRY_DELAY : Nat := 1000

/-- UPLOAD_CONFIG.LARGE_FILE_EXTRA_DELAY = 2000 ms (upload.service.ts line 34). -/
def LARGE_FILE_EXTRA_DELAY : Nat := 2000

/-- The record returned by getOptimalConfig. -/
structure OptimalConfig where
  chunkSize : Nat
  concurrency : Nat
  retries : Nat
deriving DecidableEq, Repr

/-- getOptimalConfig (upload.service.ts lines 56-96): picks chunk size,
concurrency and retry budget from the file size. -/
def getOptimalConfig (fileSize : Nat) : OptimalConfig :=
  if fileSize ≤ 50 * MB then
    ⟨5 * MB, 6, 3⟩
  else if fileSize ≤ 500 * MB then
    ⟨10 * MB, 4, 3⟩
  else if fileSize ≤ 2 * GB then
    ⟨25 * MB, 3, 4⟩
  else if fileSize ≤ 10 * GB then
    ⟨50 * MB, 2, 5⟩
  else
    ⟨100 * MB, 1, 5⟩

/-- The product chunkSize * concurrency of the plan for a given size
(the quantity of the monotonicity property in spec section 8). -/
def planProduct (fileSize : Nat) : Nat :=
  (getOptimalConfig fileSize).chunkSize * (getOptimalConfig fileSize).concurrency

/-- totalChunks = Math.ceil(file.size / chunkSize) (upload.service.ts line 165),
as the exact ceiling division on Nat. -/
def totalChunksOf (fileSize chunkSize : Nat) : Nat :=
  (fileSize + chunkSize - 1) / chunkSize

/-- const start = chunkIndex * chunkSize (upload.service.ts line 259). -/
def chunkStart (chunkSize i : Nat) : Nat := i * chunkSize

/-- const end = Math.min(file.size, start + chunkSize) (upload.service.ts line 260). -/
def chunkEnd (fileSize chunkSize i : Nat) : Nat :=
  min fileSize (i * chunkSize + chunkSize)

/-- The payload of progress$ (interface UploadProgress, upload.service.ts
lines 19-25; the optional speed and eta fields are not needed by any claim). -/
structure UploadProgress where
  totalBytes : Nat
  sentBytes : Nat
  percent : Nat
deriving DecidableEq, Repr

/-- The mutable state of the UploadService singleton: the current values of its
three BehaviorSubjects progress$, isPaused$ and isUploading$ (upload.service.ts
lines 42-44). The service is registered with providedIn root, so one single
instance of this state exists for the whole application, whatever the number
of files currently transferring. -/
structure ServiceState where
  progress : UploadProgress
  isPaused : Bool
  isUploading : Bool
deriving DecidableEq, Repr

/-- pause() (upload.service.ts lines 123-125): sets the shared pause flag. -/
def pauseService (s : ServiceState) : ServiceState :=
  { s with isPaused := true }

/-- resume() (upload.service.ts lines 132-134): clears the shared pause flag. -/
def resumeService (s : ServiceState) : ServiceState :=
  { s with isPaused := false }

/-- cancel() (upload.service.ts lines 141-145): pause, stop uploading, reset
the shared progress subject to zero. -/
def cancelService (s : ServiceState) : ServiceState :=
  { pauseService s with isUploading := false, progress := ⟨0, 0, 0⟩ }

/-- A pair of concurrently transferring objects. The UploadService holds no
per-object state at all: the only state either upload interacts with is the
one shared ServiceState of the root-provided singleton, so the system of two
concurrent uploads is exactly that shared state. -/
structure TwoUploads where
  svc : ServiceState
deriving DecidableEq, Repr

/-- The pause state observed by upload u: uploadSingleChunk reads
this.isPaused$.value (upload.service.ts line 246) on the singleton service,
for whichever file it is transmitting, so the flag any upload observes is the
shared one. -/
def pauseFlagSeenBy (sys : TwoUploads) (u : Bool) : Bool :=
  sys.svc.isPaused

/-- The progress reported for upload u: progress observers subscribe to the
singleton's progress$ (src/unnamed/part_001 lines 32-38), so the progress any
upload reports is the shared subject's value. -/
def progressSeenBy (sys : TwoUploads) (u : Bool) : UploadProgress :=
  sys.svc.progress

/-- Invoking pause() on behalf of upload u mutates the singleton's state. -/
def invokePauseFor (sys : TwoUploads) (u : Bool) : TwoUploads :=
  ⟨pauseService sys.svc⟩

/-- Invoking cancel() on behalf of upload u mutates the singleton's state. -/
def invokeCancelFor (sys : TwoUploads) (u : Bool) : TwoUploads :=
  ⟨cancelService sys.svc⟩

/-- Observable events of one chunk's transmission. Each emitted event is one
step of the discrete clock against which the pause flag and the transport
outcomes are sampled. -/
inductive Ev where
  | pausePoll
  | post
  | wait (ms : Nat)
deriving DecidableEq, Repr

/-- The backoff delay of retryChunkUpload (upload.service.ts lines 307-308):
delay = (5 - retriesLeft) * BASE_RETRY_DELAY plus LARGE_FILE_EXTRA_DELAY when
totalChunks > 100. The multiplier uses the literal 5, not the chunk's retry
budget. -/
def retryDelay (retriesLeft totalChunks : Nat) : Nat :=
  (5 - retriesLeft) * BASE_RETRY_DELAY +
    (if 100 < totalChunks then LARGE_FILE_EXTRA_DELAY else 0)

/-- The delay the spec's words prescribe for a failure with attemptsLeft
retries remaining: (maxRetries - attemptsLeft + 1) * baseDelay plus the large
object extra. Stated from the spec section 4.3 for comparison with retryDelay;
it is not what the source computes. -/
def specRetryDelay (maxRetries attemptsLeft totalChunks : Nat) : Nat :=
  (maxRetries - attemptsLeft + 1) * BASE_RETRY_DELAY +
    (if 100 < totalChunks then LARGE_FILE_EXTRA_DELAY else 0)

/-- retryChunkUpload (upload.service.ts lines 298-322), as the trace of events
it emits and its result. Arguments follow the source: chunkBytes is the byte
count reported on success, retriesLeft the remaining budget, chunkNum the
1-based chunk number used in the exhaustion error, totalChunks the chunk count
of the file. The oracle outcome gives the transport result of the post emitted
at each clock step; t is the clock value at which this call starts. With
retriesLeft = 0 the source throws the exhaustion error for chunkNum at once;
otherwise it starts a setTimeout for the backoff delay (the wait event) and,
when the timer expires, unconditionally posts the chunk again - the callback
never reads the pause flag - succeeding with chunkBytes or recursing with one
fewer retry. -/
def retryChunkUpload (outcome : Nat → Bool) (t chunkBytes retriesLeft chunkNum totalChunks : Nat) :
    List Ev × Except Nat Nat :=
  match retriesLeft with
  | 0 => ([], .error chunkNum)
  | r + 1 =>
    let d := retryDelay (r + 1) totalChunks
    if outcome (t + 1) then
      ([.wait d, .post], .ok chunkBytes)
    else
      let rest := retryChunkUpload outcome (t + 2) chunkBytes r chunkNum totalChunks
      (.wait d :: .post :: rest.1, rest.2)

/-- uploadSingleChunk (upload.service.ts lines 244-279), as the trace of events
it emits and its result. The oracle paused gives the value of isPaused$.value
at each clock step and outcome the transport result of a post emitted at a
step. While paused, the source polls the flag on a setInterval timer (one
pausePoll event per tick) and re-enters itself once the flag clears; fuel
bounds the number of modeled ticks, a run that exhausts it returns none (the
source would still be polling). Once not paused, it posts the chunk bytes
(chunkEnd - chunkStart); on transport failure it delegates to retryChunkUpload
with the full budget maxRetries and the 1-based number chunkIndex + 1. -/
def uploadSingleChunk (paused outcome : Nat → Bool)
    (fuel t fileSize chunkIndex chunkSize totalChunks maxRetries : Nat) :
    List Ev × Option (Except Nat Nat) :=
  if paused t then
    match fuel with
    | 0 => ([.pausePoll], none)
    | f + 1 =>
      let rest := uploadSingleChunk paused outcome f (t + 1)
        fileSize chunkIndex chunkSize totalChunks maxRetries
      (.pausePoll :: rest.1, rest.2)
  else
    let bytes := chunkEnd fileSize chunkSize chunkIndex - chunkStart chunkSize chunkIndex
    if outcome t then
      ([.post], some (.ok bytes))
    else
      let rest := retryChunkUpload outcome (t + 1) bytes maxRetries (chunkIndex + 1) totalChunks
      (.post :: rest.1, some rest.2)

/-- The property claimed by C4 over a trace starting at clock t0: every post
happens at a step where the pause flag is clear. -/
def noPostWhilePaused (paused : Nat → Bool) (t0 : Nat) (tr : List Ev) : Prop :=
  ∀ k, tr.get? k = some Ev.post → paused (t0 + k) = false

/-- The pause oracle of the C4 counterexample: the user pauses right after the
first transmission starts, and never resumes. -/
def pausedFromStepOne : Nat → Bool := fun t => decide (1 ≤ t)

/-- The all-failures transport oracle: every post fails. It also serves as the
never-paused pause oracle. -/
def constFalse : Nat → Bool := fun _ => false

/-- percent = Math.min(99, Math.floor((sentBytes / totalBytes) * 100))
(upload.service.ts lines 192 and 209), as exact Nat arithmetic. -/
def percentOf (sentBytes totalBytes : Nat) : Nat :=
  min 99 (sentBytes * 100 / totalBytes)

/-- Observable events of one uploadFileMultipart run: a value published on
progress$, or the finalize HTTP call issued by complete() (upload.service.ts
lines 338-342) carrying the totalChunks it validates. -/
inductive PEv where
  | publish (p : UploadProgress)
  | completeCall (totalChunks : Nat)
deriving DecidableEq, Repr

/-- Whether a run's event list contains a finalize call. -/
def hasCompleteCall : List PEv → Bool
  | [] => false
  | PEv.completeCall _ :: _ => true
  | _ :: rest => hasCompleteCall rest

/-- The chunk phase of the pipeline (upload.service.ts lines 195-215): each
pending chunk is sent through uploadSingleChunk; on its overall success the
scheduler adds the chunk's byte length to sentBytes and publishes a progress
value with percent capped at 99; the first chunk whose retries exhaust makes
the whole pipeline error, stopping the phase. The oracle chunkOk gives each
chunk's overall outcome (success, or retry exhaustion); chunk completions are
modelled in list order. Returns the published events, the final sentBytes and
whether every chunk succeeded. -/
def processChunks (chunkOk : Nat → Bool) (chunkSize totalBytes : Nat) :
    Nat → List Nat → List PEv × Nat × Bool
  | sent, [] => ([], sent, true)
  | sent, i :: rest =>
    if chunkOk i then
      let sent2 := sent + (chunkEnd totalBytes chunkSize i - chunkStart chunkSize i)
      let next := processChunks chunkOk chunkSize totalBytes sent2 rest
      (PEv.publish ⟨totalBytes, sent2, percentOf sent2 totalBytes⟩ :: next.1, next.2)
    else
      ([], sent, false)

/-- The chunk size a run actually uses: init.recommendedChunkSize with the
plan's chunk size as fallback (upload.service.ts line 164, the expression
rcs || config.chunkSize); rcs = 0 stands for every JS-falsy value. -/
def effectiveChunkSize (fileSize rcs : Nat) : Nat :=
  if rcs = 0 then (getOptimalConfig fileSize).chunkSize else rcs

/-- The pending-index list of the run: the chunk indices below totalChunks not
already reported as uploaded (upload.service.ts lines 170-171). -/
def pendingChunks (totalChunks : Nat) (uploaded : List Nat) : List Nat :=
  (List.range totalChunks).filter (fun i => !(uploaded.contains i))

/-- uploadFileMultipart (upload.service.ts lines 161-225), as the list of
events a run emits and whether the returned observable completes successfully.
The chunk size is the effective one, totalChunks the ceiling division, the
uploaded set the distinct given indices, and sentBytes starts at
uploadedSet.size * chunkSize (line 177). If the distinct uploaded count equals
totalChunks (line 184) the source publishes percent 100 at once and completes
without calling complete(). Otherwise it publishes an initial capped progress
(line 192), runs the chunk phase, on success of every chunk issues the
finalize call (line 217), and the rxjs finalize(...) cleanup (lines 218-222)
publishes the percent-100 value at termination whether the pipeline completed
or errored. -/
def uploadFileMultipartRun (fileSize rcs : Nat) (uploadedChunks : List Nat)
    (chunkOk : Nat → Bool) (finalizeOk : Bool) : List PEv × Bool :=
  let chunkSize := effectiveChunkSize fileSize rcs
  let totalChunks := totalChunksOf fileSize chunkSize
  let uploaded := uploadedChunks.dedup
  let chunks := pendingChunks totalChunks uploaded
  let sent0 := uploaded.length * chunkSize
  if uploaded.length = totalChunks then
    ([PEv.publish ⟨fileSize, fileSize, 100⟩], true)
  else
    let run := processChunks chunkOk chunkSize fileSize sent0 chunks
    let headEvs := PEv.publish ⟨fileSize, sent0, percentOf sent0 fileSize⟩ :: run.1
    let mid := if run.2.2 then headEvs ++ [PEv.completeCall totalChunks] else headEvs
    (mid ++ [PEv.publish ⟨fileSize, fileSize, 100⟩],
     if run.2.2 then finalizeOk else false)

/-- A file as the component sees it: name and byte size. -/
structure FileData where
  name : String
  size : Nat
deriving DecidableEq, Repr

/-- The error messages the single-file component can record, abstracted from
their Spanish text: the too-large and empty-file messages of setFile
(src/unnamed/part_001 lines 184 and 189) and the retry-exhaustion message
surfaced by the start() error handler (line 90), which carries the 1-based
chunk number of the failing chunk. -/
inductive FileError where
  | tooLarge
  | emptyFile
  | uploadFailed (chunkNum : Nat)
deriving DecidableEq, Repr

/-- The signal state of the single-file UploaderComponent
(src/unnamed/part_001 lines 15-27) that setFile and the upload callbacks
touch. -/
structure UploaderState where
  file : Option FileData
  fileName : String
  percent : Nat
  totalBytes : Nat
  sentBytes : Nat
  speedBps : Option Nat
  etaSeconds : Option Nat
  done : Bool
  error : Option FileError
deriving DecidableEq, Repr

/-- const maxSize = 10 * 1024 * 1024 * 1024 (src/unnamed/part_001 line 182). -/
def setFileMaxSize : Nat := 10 * 1024 * 1024 * 1024

/-- setFile (src/unnamed/part_001 lines 180-200): reject a file larger than
10 GB, then reject an empty file, recording only an error message in either
case; otherwise accept the file, clear done and the error, and reset the
name, total bytes, percent and sent bytes. -/
def setFile (st : UploaderState) (f : FileData) : UploaderState :=
  if setFileMaxSize < f.size then
    { st with error := some FileError.tooLarge }
  else if f.size = 0 then
    { st with error := some FileError.emptyFile }
  else
    { st with
      file := some f
      done := false
      error := none
      fileName := f.name
      totalBytes := f.size
      percent := 0
      sentBytes := 0 }

/-- The error branch of the start() subscription (src/unnamed/part_001 line
90): the component records the propagated error message in its error signal,
which is the object's terminal Error state. -/
def onUploadError (st : UploaderState) (chunkNum : Nat) : UploaderState :=
  { st with error := some (FileError.uploadFailed chunkNum) }

/-
Theorems. Each claim Ci of the specification review is settled by the
theorem(s) named in its doc comment.
-/

/-- C2: getOptimalConfig is total on Nat by construction and returns exactly the
section 4.1 table on each of the five size ranges; in particular a 120 MB file
gets 10 MB chunks, concurrency 4, retries 3, and 12 total chunks. -/
theorem getOptimalConfig_table :
    (∀ n, n ≤ 50 * MB → getOptimalConfig n = ⟨5 * MB, 6, 3⟩) ∧
    (∀ n, 50 * MB < n → n ≤ 500 * MB → getOptimalConfig n = ⟨10 * MB, 4, 3⟩) ∧
    (∀ n, 500 * MB < n → n ≤ 2 * GB → getOptimalConfig n = ⟨25 * MB, 3, 4⟩) ∧
    (∀ n, 2 * GB < n → n ≤ 10 * GB → getOptimalConfig n = ⟨50 * MB, 2, 5⟩) ∧
    (∀ n, 10 * GB < n → getOptimalConfig n = ⟨100 * MB, 1, 5⟩) ∧
    getOptimalConfig (120 * MB) = ⟨10 * MB, 4, 3⟩ ∧
    totalChunksOf (120 * MB) (10 * MB) = 12 := by
  refine ⟨?_, ?_, ?_, ?_, ?_, by decide, by decide⟩ <;>
    · intro n h
      first
      | (intro h2
         simp only [getOptimalConfig, MB, GB] at *
         split_ifs <;> first | rfl | omega)
      | (simp only [getOptimalConfig, MB, GB] at *
         split_ifs <;> first | rfl | omega)

/-- Witness for getOptimalConfig_table: the 120 MB range clause at a concrete size. -/
theorem getOptimalConfig_table_witness :
    getOptimalConfig (120 * MB) = ⟨10 * MB, 4, 3⟩ :=
  getOptimalConfig_table.2.1 (120 * MB) (by decide) (by decide)

/-- C9 counterexample: the claim asserts the product chunkSize * concurrency is
non-increasing in the file size, but crossing the 50 MB threshold the product
grows from 5 MB * 6 = 30 MB to 10 MB * 4 = 40 MB: for the pair of sizes
s1 = 0 and s2 = 51 MB with s1 <= s2, planProduct s1 < planProduct s2. -/
theorem plan_product_counterexample :
    (0 : Nat) ≤ 51 * MB ∧ planProduct 0 = 30 * MB ∧ planProduct (51 * MB) = 40 * MB ∧
    ¬ planProduct (51 * MB) ≤ planProduct 0 := by decide

/-- C9 amended: the product chunkSize * concurrency of the plan INCREASES or
stays flat as the object size grows (it is monotone non-decreasing, taking the
values 30 MB, 40 MB, 75 MB, 100 MB, 100 MB across the five ranges), rather
than decreasing as claimed. -/
theorem plan_product_monotone_nondecreasing (s1 s2 : Nat) (h : s1 ≤ s2) :
    planProduct s1 ≤ planProduct s2 := by
  simp only [planProduct, getOptimalConfig, MB, GB] at *
  split_ifs <;> simp_all <;> omega

/-- Witness for plan_product_monotone_nondecreasing at the concrete pair 0 <= 51 MB. -/
theorem plan_product_monotone_nondecreasing_witness :
    planProduct 0 ≤ planProduct (51 * MB) :=
  plan_product_monotone_nondecreasing 0 (51 * MB) (by decide)

/-- For a nonempty file, the ceiling division of the scheduler equals one more
than the floor division of the last byte position. -/
theorem totalChunksOf_eq_pred_div (S C : Nat) (hS : 0 < S) (hC : 0 < C) :
    totalChunksOf S C = (S - 1) / C + 1 := by
  unfold totalChunksOf
  have h1 : S + C - 1 = (S - 1) + C := by omega
  rw [h1, Nat.add_div_right _ hC]

/-- Every byte position below S lies strictly before the end of its own chunk. -/
theorem lt_own_chunk_end (b C : Nat) (hC : 0 < C) : b < b / C * C + C := by
  have hdm := Nat.div_add_mod b C
  have hr : b % C < C := Nat.mod_lt _ hC
  have h2 : C * (b / C) + b % C < C * (b / C) + C := Nat.add_lt_add_left hr _
  rw [hdm] at h2
  rw [Nat.mul_comm]
  exact h2

/-- C1: for every file size S > 0 and effective chunk size C > 0, the scheduler
produces totalChunks = ceil(S / C) chunks (characterized by
C * (totalChunks - 1) < S <= C * totalChunks), chunk i covers the byte range
from chunkStart to chunkEnd, the ranges of distinct chunks are pairwise
disjoint, and their union is exactly the interval of positions below S, with
no overlap and no gap. -/
theorem chunk_ranges_partition (S C : Nat) (hS : 0 < S) (hC : 0 < C) :
    (C * (totalChunksOf S C - 1) < S ∧ S ≤ C * totalChunksOf S C) ∧
    (∀ i j, i < totalChunksOf S C → j < totalChunksOf S C → i ≠ j →
      ∀ b, chunkStart C i ≤ b → b < chunkEnd S C i →
        ¬ (chunkStart C j ≤ b ∧ b < chunkEnd S C j)) ∧
    (∀ b, b < S ↔
      ∃ i, i < totalChunksOf S C ∧ chunkStart C i ≤ b ∧ b < chunkEnd S C i) := by
  have htc := totalChunksOf_eq_pred_div S C hS hC
  refine ⟨⟨?_, ?_⟩, ?_, ?_⟩
  · rw [htc]
    simp only [Nat.add_sub_cancel]
    have := Nat.div_mul_le_self (S - 1) C
    have h2 : (S - 1) / C * C = C * ((S - 1) / C) := Nat.mul_comm _ _
    omega
  · rw [htc]
    have h1 : S - 1 < (S - 1) / C * C + C := lt_own_chunk_end (S - 1) C hC
    have h2 : C * ((S - 1) / C + 1) = (S - 1) / C * C + C := by ring
    omega
  · intro i j hi hj hne b hbs hbe hj2
    obtain ⟨hbs2, hbe2⟩ := hj2
    rcases Nat.lt_or_ge i j with hij | hij
    · have h1 : chunkEnd S C i ≤ (i + 1) * C :=
        le_trans (Nat.min_le_right _ _) (by rw [Nat.add_mul, Nat.one_mul])
      have h2 : (i + 1) * C ≤ j * C := Nat.mul_le_mul_right C hij
      have h3 : chunkStart C j = j * C := rfl
      rw [h3] at hbs2
      exact Nat.lt_irrefl b (lt_of_lt_of_le (lt_of_lt_of_le (lt_of_lt_of_le hbe h1) h2) hbs2)
    · have hji : j < i := by omega
      have h1 : chunkEnd S C j ≤ (j + 1) * C :=
        le_trans (Nat.min_le_right _ _) (by rw [Nat.add_mul, Nat.one_mul])
      have h2 : (j + 1) * C ≤ i * C := Nat.mul_le_mul_right C hji
      have h3 : chunkStart C i = i * C := rfl
      rw [h3] at hbs
      exact Nat.lt_irrefl b (lt_of_lt_of_le (lt_of_lt_of_le (lt_of_lt_of_le hbe2 h1) h2) hbs)
  · intro b
    constructor
    · intro hb
      refine ⟨b / C, ?_, ?_, ?_⟩
      · rw [htc]
        have : b / C ≤ (S - 1) / C := Nat.div_le_div_right (by omega)
        omega
      · exact Nat.div_mul_le_self b C
      · exact lt_min hb (lt_own_chunk_end b C hC)
    · intro ⟨i, _, _, hbe⟩
      exact lt_of_lt_of_le hbe (Nat.min_le_left _ _)

/-- Witness for chunk_ranges_partition: a 12 byte file with 5 byte chunks. -/
theorem chunk_ranges_partition_witness :
    (5 * (totalChunksOf 12 5 - 1) < 12 ∧ 12 ≤ 5 * totalChunksOf 12 5) ∧
    (∀ i j, i < totalChunksOf 12 5 → j < totalChunksOf 12 5 → i ≠ j →
      ∀ b, chunkStart 5 i ≤ b → b < chunkEnd 12 5 i →
        ¬ (chunkStart 5 j ≤ b ∧ b < chunkEnd 12 5 j)) ∧
    (∀ b, b < 12 ↔
      ∃ i, i < totalChunksOf 12 5 ∧ chunkStart 5 i ≤ b ∧ b < chunkEnd 12 5 i) :=
  chunk_ranges_partition 12 5 (by decide) (by decide)

/-- C3 counterexample: with upload A (u = false) and upload B (u = true) both
driven by the singleton service, starting from the concrete state where B is
mid-transfer (500 of 1000 bytes, not paused), invoking pause() for A flips the
pause flag B observes, and invoking cancel() for A resets the progress B
reports - the two transfers share the service's mutable subjects, refuting the
claimed independence. -/
theorem shared_pause_counterexample :
    pauseFlagSeenBy (invokePauseFor ⟨⟨⟨1000, 500, 50⟩, false, true⟩⟩ false) true ≠
      pauseFlagSeenBy ⟨⟨⟨1000, 500, 50⟩, false, true⟩⟩ true ∧
    progressSeenBy (invokeCancelFor ⟨⟨⟨1000, 500, 50⟩, false, true⟩⟩ false) true ≠
      progressSeenBy ⟨⟨⟨1000, 500, 50⟩, false, true⟩⟩ true := by
  decide

/-- C3 amended: concurrently transferring objects are NOT independent - all of
them share the singleton UploadService's mutable subjects. Invoking pause()
while any object is transferring sets the pause flag observed by EVERY upload,
and invoking cancel() resets the progress reported for EVERY upload to zero. -/
theorem pause_cancel_affect_all_uploads (sys : TwoUploads) (u v : Bool) :
    pauseFlagSeenBy (invokePauseFor sys u) v = true ∧
    progressSeenBy (invokeCancelFor sys u) v = ⟨0, 0, 0⟩ ∧
    pauseFlagSeenBy (invokeCancelFor sys u) v = true := by
  exact ⟨rfl, rfl, rfl⟩

/-- C4 counterexample: a single-chunk upload whose first transmission fails,
after which the user pauses (pausedFromStepOne) and never resumes. The retry
backoff timer expires at clock step 2 with the pause flag set, yet the trace
shows the chunk resubmitted there (a post at position 2, right after the wait
at position 1): the setTimeout callback of retryChunkUpload posts without
checking the flag, refuting the claim that a paused scheduler does not let a
queued retry fire. -/
theorem retry_fires_while_paused_counterexample :
    (uploadSingleChunk pausedFromStepOne constFalse 0 0 1 0 1 1 3).1.get? 1 =
      some (Ev.wait 2000) ∧
    (uploadSingleChunk pausedFromStepOne constFalse 0 0 1 0 1 1 3).1.get? 2 =
      some Ev.post ∧
    pausedFromStepOne 2 = true ∧
    ¬ noPostWhilePaused pausedFromStepOne 0
      (uploadSingleChunk pausedFromStepOne constFalse 0 0 1 0 1 1 3).1 := by
  refine ⟨by decide, by decide, by decide, fun h => ?_⟩
  exact absurd (h 2 (by decide)) (by decide)

/-- C4 amended: only the INITIAL send of a chunk honors the pause flag - the
first post of an uploadSingleChunk run happens at a step where the flag is
clear, the sender polling until then - while a chunk awaiting a retry backoff
is resubmitted as soon as the delay expires, unconditionally: whatever the
pause flag's value, a retry call with budget left emits its wait immediately
followed by a post. -/
theorem pause_gate_and_retry_resubmit (paused outcome : Nat → Bool)
    (fuel t fileSize chunkIndex chunkSize totalChunks maxRetries b r n tc t2 : Nat) :
    (∀ k, (uploadSingleChunk paused outcome fuel t fileSize chunkIndex chunkSize
        totalChunks maxRetries).1.get? k = some Ev.post →
      (∀ j, j < k → (uploadSingleChunk paused outcome fuel t fileSize chunkIndex chunkSize
        totalChunks maxRetries).1.get? j ≠ some Ev.post) →
      paused (t + k) = false) ∧
    (retryChunkUpload outcome t2 b (r + 1) n tc).1.get? 0 =
      some (Ev.wait (retryDelay (r + 1) tc)) ∧
    (retryChunkUpload outcome t2 b (r + 1) n tc).1.get? 1 = some Ev.post := by
  refine ⟨?_, ?_, ?_⟩
  · induction fuel generalizing t with
    | zero =>
      intro k hk hfirst
      by_cases hp : paused t = true
      · simp only [uploadSingleChunk, hp, if_true] at hk
        rcases k with _ | k <;> simp at hk
      · simp only [Bool.not_eq_true] at hp
        rcases k with _ | k
        · simpa using hp
        · exfalso
          refine hfirst 0 (Nat.succ_pos k) ?_
          simp only [uploadSingleChunk, hp, Bool.false_eq_true, if_false]
          split <;> rfl
    | succ f ih =>
      intro k hk hfirst
      by_cases hp : paused t = true
      · simp only [uploadSingleChunk, hp, if_true] at hk
        rcases k with _ | k
        · simp at hk
        · simp only [List.get?_cons_succ] at hk
          have hrest := ih (t + 1) k hk (fun j hj => by
            have := hfirst (j + 1) (by omega)
            simp only [uploadSingleChunk, hp, if_true, List.get?_cons_succ] at this
            exact this)
          have harith : t + 1 + k = t + (k + 1) := by omega
          rw [harith] at hrest
          exact hrest
      · simp only [Bool.not_eq_true] at hp
        rcases k with _ | k
        · simpa using hp
        · exfalso
          refine hfirst 0 (Nat.succ_pos k) ?_
          simp only [uploadSingleChunk, hp, Bool.false_eq_true, if_false]
          split <;> rfl
  · rcases houtcome : outcome (t2 + 1) <;>
      simp [retryChunkUpload, houtcome]
  · rcases houtcome : outcome (t2 + 1) <;>
      simp [retryChunkUpload, houtcome]

/-- Witness for pause_gate_and_retry_resubmit at a concrete run: the first
post of the counterexample run happens unpaused at step 0, and the concrete
retry resubmits at its second event. -/
theorem pause_gate_and_retry_resubmit_witness :
    pausedFromStepOne (0 + 0) = false ∧
    (retryChunkUpload constFalse 7 1 (2 + 1) 1 1).1.get? 1 = some Ev.post := by
  refine ⟨?_, ?_⟩
  · exact (pause_gate_and_retry_resubmit pausedFromStepOne constFalse
      0 0 1 0 1 1 3 1 2 1 1 7).1 0 (by decide) (fun j hj => absurd hj (by omega))
  · exact (pause_gate_and_retry_resubmit pausedFromStepOne constFalse
      0 0 1 0 1 1 3 1 2 1 1 7).2.2

/-- C5 counterexample: a 120 MB file has 12 chunks of 10 MB and maxRetries = 3,
so the first failure of a chunk retries with attemptsLeft = 3. The claim's
formula gives (maxRetries - attemptsLeft + 1) * 1000 = 1000 ms, but the source
computes (5 - retriesLeft) * 1000 and the run waits 2000 ms: the multiplier is
the literal 5, not maxRetries + 1. -/
theorem retry_delay_formula_counterexample :
    getOptimalConfig (120 * MB) = ⟨10 * MB, 4, 3⟩ ∧
    (retryChunkUpload constFalse 0 (10 * MB) 3 1 12).1.get? 0 =
      some (Ev.wait 2000) ∧
    specRetryDelay 3 3 12 = 1000 ∧
    retryDelay 3 12 ≠ specRetryDelay 3 3 12 := by decide

/-- C5 amended: on a chunk send failure with attemptsLeft > 0 the scheduler
waits exactly (5 - attemptsLeft) * baseDelay + (totalChunks > 100 ?
largeObjectExtraDelay : 0) milliseconds - the multiplier is the constant 5,
which agrees with the claimed (maxRetries - attemptsLeft + 1) only when
maxRetries = 4 - and then resends that chunk, continuing with
attemptsLeft - 1 on a further failure and returning the chunk's bytes on
success. -/
theorem retry_backoff_delay (outcome : Nat → Bool) (t b r n tc : Nat) :
    (retryChunkUpload outcome t b (r + 1) n tc).1.get? 0 =
      some (Ev.wait ((5 - (r + 1)) * BASE_RETRY_DELAY +
        if 100 < tc then LARGE_FILE_EXTRA_DELAY else 0)) ∧
    (outcome (t + 1) = false →
      (retryChunkUpload outcome t b (r + 1) n tc).1.drop 2 =
        (retryChunkUpload outcome (t + 2) b r n tc).1 ∧
      (retryChunkUpload outcome t b (r + 1) n tc).2 =
        (retryChunkUpload outcome (t + 2) b r n tc).2) ∧
    (outcome (t + 1) = true →
      (retryChunkUpload outcome t b (r + 1) n tc).2 = Except.ok b) := by
  refine ⟨?_, fun hfail => ⟨?_, ?_⟩, fun hok => ?_⟩
  · rcases houtcome : outcome (t + 1) <;>
      simp [retryChunkUpload, retryDelay, houtcome]
  · simp [retryChunkUpload, hfail]
  · simp [retryChunkUpload, hfail]
  · simp [retryChunkUpload, hok]

/-- Witness for retry_backoff_delay at a concrete failing run with
attemptsLeft = 3 on a 12 chunk file: the wait is 2000 ms and the remainder of
the run is the resend with attemptsLeft = 2. -/
theorem retry_backoff_delay_witness :
    (retryChunkUpload constFalse 0 1 (2 + 1) 1 12).1.get? 0 =
      some (Ev.wait ((5 - (2 + 1)) * BASE_RETRY_DELAY +
        if 100 < 12 then LARGE_FILE_EXTRA_DELAY else 0)) ∧
    (retryChunkUpload constFalse 0 1 (2 + 1) 1 12).1.drop 2 =
      (retryChunkUpload constFalse 2 1 2 1 12).1 := by
  have h := retry_backoff_delay constFalse 0 1 2 1 12
  exact ⟨h.1, (h.2.1 (by decide)).1⟩

/-- When every transmission fails, a retry call with budget r performs exactly
r further posts and ends in the exhaustion error naming the chunk. -/
theorem retryChunkUpload_all_fail (t b r n tc : Nat) :
    (retryChunkUpload constFalse t b r n tc).2 = Except.error n ∧
    (retryChunkUpload constFalse t b r n tc).1.count Ev.post = r := by
  induction r generalizing t with
  | zero => simp [retryChunkUpload]
  | succ r ih =>
    have h := ih (t + 2)
    simp [retryChunkUpload, constFalse, List.count_cons, h.1, h.2]

/-- C6: an unpaused chunk whose transmission fails maxRetries + 1 consecutive
times (the all-failures oracle) performs exactly maxRetries + 1 posts - the
chunk is not retried further - and the upload fails with the terminal
exhaustion error carrying chunkIndex + 1, the 1-based number that identifies
the failing chunk (the source's message names chunk chunkNum of totalChunks);
the component's error handler then records that error in its error signal, the
object's Error state. -/
theorem retry_exhaustion_terminal (fuel t fileSize chunkIndex chunkSize totalChunks maxRetries : Nat)
    (st : UploaderState) :
    (uploadSingleChunk constFalse constFalse fuel t fileSize chunkIndex chunkSize
      totalChunks maxRetries).2 = some (Except.error (chunkIndex + 1)) ∧
    (uploadSingleChunk constFalse constFalse fuel t fileSize chunkIndex chunkSize
      totalChunks maxRetries).1.count Ev.post = maxRetries + 1 ∧
    (onUploadError st (chunkIndex + 1)).error =
      some (FileError.uploadFailed (chunkIndex + 1)) := by
  have h := retryChunkUpload_all_fail (t + 1)
    (chunkEnd fileSize chunkSize chunkIndex - chunkStart chunkSize chunkIndex)
    maxRetries (chunkIndex + 1) totalChunks
  refine ⟨?_, ?_, rfl⟩
  · cases fuel <;> simp [uploadSingleChunk, constFalse, h.1]
  · cases fuel <;> simp [uploadSingleChunk, constFalse, List.count_cons, h.2]

/-- Every progress value published during the chunk phase has percent at most
99: each one is capped by the min-99 in percentOf. -/
theorem processChunks_percent_le (chunkOk : Nat → Bool) (chunkSize totalBytes sent : Nat)
    (l : List Nat) :
    ∀ p ∈ (processChunks chunkOk chunkSize totalBytes sent l).1,
      ∀ q, p = PEv.publish q → q.percent ≤ 99 := by
  induction l generalizing sent with
  | nil =>
    intro p hp
    simp [processChunks] at hp
  | cons i rest ih =>
    intro p hp q hq
    by_cases hok : chunkOk i = true
    · simp only [processChunks, hok, if_true, List.mem_cons] at hp
      rcases hp with hp | hp
      · subst hq
        cases hp
        exact Nat.min_le_left _ _
      · exact ih _ p hp q hq
    · simp only [Bool.not_eq_true] at hok
      simp [processChunks, hok] at hp

/-- C7 counterexample: a 1 byte file, no prior chunks, whose single chunk
exhausts its retries. The pipeline errors before finalize is ever called, yet
the rxjs finalize cleanup still publishes the percent-100 progress value: the
run's events are the initial capped publish followed by a percent-100 publish,
with no finalize call in the trace, refuting that percent = 100 is published
only after the finalize call has completed successfully. -/
theorem percent_hundred_without_finalize_counterexample :
    (uploadFileMultipartRun 1 0 [] constFalse true).1 =
      [PEv.publish ⟨1, 0, 0⟩, PEv.publish ⟨1, 1, 100⟩] ∧
    hasCompleteCall (uploadFileMultipartRun 1 0 [] constFalse true).1 = false ∧
    (uploadFileMultipartRun 1 0 [] constFalse true).2 = false := by decide

/-- C7 amended: every progress value published before the run's final event
has percent at most 99, and the final event is always the percent-100 publish
- but that terminal publish happens at pipeline termination whether the
finalize call succeeded, failed, or was never issued (error before finalize,
or the already-fully-uploaded fast path), not only after a successful
finalize. -/
theorem percent_capped_until_terminal_publish (fileSize rcs : Nat)
    (uploadedChunks : List Nat) (chunkOk : Nat → Bool) (finalizeOk : Bool) :
    (uploadFileMultipartRun fileSize rcs uploadedChunks chunkOk finalizeOk).1.getLast?
      = some (PEv.publish ⟨fileSize, fileSize, 100⟩) ∧
    ∀ p ∈ (uploadFileMultipartRun fileSize rcs uploadedChunks chunkOk finalizeOk).1.dropLast,
      ∀ q, p = PEv.publish q → q.percent ≤ 99 := by
  have hlem := processChunks_percent_le chunkOk (effectiveChunkSize fileSize rcs) fileSize
    (uploadedChunks.dedup.length * effectiveChunkSize fileSize rcs)
    (pendingChunks (totalChunksOf fileSize (effectiveChunkSize fileSize rcs)) uploadedChunks.dedup)
  by_cases hdone : uploadedChunks.dedup.length
      = totalChunksOf fileSize (effectiveChunkSize fileSize rcs)
  · constructor
    · simp [uploadFileMultipartRun, hdone]
    · intro p hp
      simp [uploadFileMultipartRun, hdone] at hp
  · constructor
    · simp only [uploadFileMultipartRun, hdone, if_false]
      exact List.getLast?_concat _
    · intro p hp q hq
      simp only [uploadFileMultipartRun, hdone, if_false, List.dropLast_concat] at hp
      by_cases hrun : (processChunks chunkOk (effectiveChunkSize fileSize rcs) fileSize
          (uploadedChunks.dedup.length * effectiveChunkSize fileSize rcs)
          (pendingChunks (totalChunksOf fileSize (effectiveChunkSize fileSize rcs))
            uploadedChunks.dedup)).2.2 = true
      · simp only [hrun, if_true, List.mem_append, List.mem_cons, List.mem_singleton] at hp
        rcases hp with (hp | hp) | (hp | hp)
        · subst hq
          cases hp
          exact Nat.min_le_left _ _
        · exact hlem p hp q hq
        · subst hq
          cases hp
        · simp at hp
      · simp only [Bool.not_eq_true] at hrun
        simp only [hrun, Bool.false_eq_true, if_false, List.mem_cons] at hp
        rcases hp with hp | hp
        · subst hq
          cases hp
          exact Nat.min_le_left _ _
        · exact hlem p hp q hq

/-- Witness for percent_capped_until_terminal_publish on a concrete successful
run: a 1 byte file whose chunk and finalize both succeed. -/
theorem percent_capped_until_terminal_publish_witness :
    (uploadFileMultipartRun 1 0 [] (fun _ => true) true).1.getLast?
      = some (PEv.publish ⟨1, 1, 100⟩) ∧
    ∀ p ∈ (uploadFileMultipartRun 1 0 [] (fun _ => true) true).1.dropLast,
      ∀ q, p = PEv.publish q → q.percent ≤ 99 :=
  percent_capped_until_terminal_publish 1 0 [] (fun _ => true) true

/-- C8 counterexample: a 1 byte file (one chunk) whose init response already
reports index 0 as received, so the pending set is empty. The run is the
single percent-100 publish and the observable completes successfully, with NO
finalize call in the trace: the source returns of(void 0) from the early
branch at upload.service.ts lines 184-188 without ever calling complete(),
refuting the claim that the scheduler still issues the finalize call. -/
theorem empty_pending_skips_finalize_counterexample :
    uploadFileMultipartRun 1 0 [0] constFalse true =
      ([PEv.publish ⟨1, 1, 100⟩], true) ∧
    hasCompleteCall (uploadFileMultipartRun 1 0 [0] constFalse true).1 = false := by
  decide

/-- C8 amended: an upload started when the count of distinct already-received
indices equals totalChunks (in particular whenever the init response reports
exactly the full index set, making the pending set empty) reports completion
immediately - the run is one percent-100 publish and a successful completion -
WITHOUT issuing the finalize call to the server. -/
theorem empty_pending_fast_path (fileSize rcs : Nat) (uploadedChunks : List Nat)
    (chunkOk : Nat → Bool) (finalizeOk : Bool)
    (h : uploadedChunks.dedup.length
      = totalChunksOf fileSize (effectiveChunkSize fileSize rcs)) :
    uploadFileMultipartRun fileSize rcs uploadedChunks chunkOk finalizeOk =
      ([PEv.publish ⟨fileSize, fileSize, 100⟩], true) ∧
    hasCompleteCall
      (uploadFileMultipartRun fileSize rcs uploadedChunks chunkOk finalizeOk).1 = false := by
  constructor
  · simp [uploadFileMultipartRun, h]
  · simp [uploadFileMultipartRun, h, hasCompleteCall]

/-- Witness for empty_pending_fast_path at the concrete one-chunk input. -/
theorem empty_pending_fast_path_witness :
    uploadFileMultipartRun 1 0 [0] (fun _ => true) false =
      ([PEv.publish ⟨1, 1, 100⟩], true) ∧
    hasCompleteCall (uploadFileMultipartRun 1 0 [0] (fun _ => true) false).1 = false :=
  empty_pending_fast_path 1 0 [0] (fun _ => true) false (by decide)

/-- C10: setFile rejects a file whose size is 0 or exceeds 10 GB, recording an
error message and leaving the selected file, name, progress state and done
flag unchanged; a file with 0 < size <= 10 GB is accepted: the file is stored,
the error cleared, the name and total bytes set, and percent and sentBytes
reset to 0. -/
theorem setFile_validation (st : UploaderState) (f : FileData) :
    (f.size = 0 ∨ setFileMaxSize < f.size →
      (setFile st f).error.isSome = true ∧
      (setFile st f).file = st.file ∧
      (setFile st f).fileName = st.fileName ∧
      (setFile st f).percent = st.percent ∧
      (setFile st f).totalBytes = st.totalBytes ∧
      (setFile st f).sentBytes = st.sentBytes ∧
      (setFile st f).done = st.done) ∧
    (0 < f.size → f.size ≤ setFileMaxSize →
      (setFile st f).file = some f ∧
      (setFile st f).error = none ∧
      (setFile st f).percent = 0 ∧
      (setFile st f).sentBytes = 0 ∧
      (setFile st f).fileName = f.name ∧
      (setFile st f).totalBytes = f.size ∧
      (setFile st f).done = false) := by
  constructor
  · intro h
    unfold setFile
    rcases h with h | h
    · rw [if_neg (by omega), if_pos h]
      exact ⟨rfl, rfl, rfl, rfl, rfl, rfl, rfl⟩
    · rw [if_pos h]
      exact ⟨rfl, rfl, rfl, rfl, rfl, rfl, rfl⟩
  · intro h1 h2
    unfold setFile
    rw [if_neg (by omega), if_neg (by omega)]
    exact ⟨rfl, rfl, rfl, rfl, rfl, rfl, rfl⟩

/-- Witness for setFile_validation: a 120 MB video accepted from a dirty
previous state. -/
theorem setFile_validation_witness :
    (setFile ⟨none, "", 7, 3, 4, none, none, true, some FileError.emptyFile⟩
        ⟨"video.mp4", 120 * MB⟩).file = some ⟨"video.mp4", 120 * MB⟩ ∧
    (setFile ⟨none, "", 7, 3, 4, none, none, true, some FileError.emptyFile⟩
        ⟨"video.mp4", 120 * MB⟩).error = none ∧
    (setFile ⟨none, "", 7, 3, 4, none, none, true, some FileError.emptyFile⟩
        ⟨"video.mp4", 120 * MB⟩).percent = 0 ∧
    (setFile ⟨none, "", 7, 3, 4, none, none, true, some FileError.emptyFile⟩
        ⟨"video.mp4", 120 * MB⟩).sentBytes = 0 := by
  have h := (setFile_validation ⟨none, "", 7, 3, 4, none, none, true, some FileError.emptyFile⟩
    ⟨"video.mp4", 120 * MB⟩).2 (by decide) (by decide)
  exact ⟨h.1, h.2.1, h.2.2.1, h.2.2.2.1⟩

end Uploader
